import Mathlib

/-!
Shallow embedding of two components of the edx-platform fragment:

* `Rubric` — `common/lib/xmodule/xmodule/combined_open_ended_rubric.py`:
  the `CombinedOpenEndedRubric` class (rubric extraction, validation,
  rendering boundary).  XML elements are modelled by `XElem`; the mutable
  instance flag `self.has_score` is threaded explicitly as a `Bool`
  argument and result.  Python exceptions are modelled by the `PyErr`
  inductive; fallible code returns `Except PyErr _`.

* `Tasks` — `lms/djangoapps/courseware/tasks.py`: the bulk student-module
  update loop, the task-log bookkeeping wrapper, and the reset-attempts
  update function.  Database records are explicit structures; saves and
  tracking events are returned as data.
-/

namespace Rubric

/-- Python exceptions distinguished by the rubric code: `RubricParsingError`
(a dedicated class), a plain `Exception` (raised for the mixed
auto-numbering configuration error), `IndexError` (unguarded child access),
`ValueError` and `TypeError` (from `int()` and from tuple unpacking). -/
inductive PyErr where
  | rubricParsingError (msg : String)
  | plainException (msg : String)
  | indexError
  | valueError (msg : String)
  | typeError (msg : String)
  deriving Repr, DecidableEq

/-- An lxml element as the rubric code sees it: a tag, optional text,
the optional `points` attribute (the only attribute the code reads,
via `option.get("points")`), and the list of child elements. -/
inductive XElem where
  | mk (tag : String) (text : Option String) (points : Option String)
      (children : List XElem)
  deriving Repr

def XElem.tag : XElem → String
  | .mk t _ _ _ => t

def XElem.text : XElem → Option String
  | .mk _ t _ _ => t

def XElem.points : XElem → Option String
  | .mk _ _ p _ => p

def XElem.children : XElem → List XElem
  | .mk _ _ _ c => c

/-- Shorthand builders for concrete rubric XML trees, used in concrete
instances below. -/
def optEl (t : String) (p : Option String) : XElem := .mk "option" (some t) p []

def descrEl (t : String) : XElem := .mk "description" (some t) none []

def scoreEl (t : String) : XElem := .mk "score" (some t) none []

def catEl (cs : List XElem) : XElem := .mk "category" none none cs

def rubricEl (cs : List XElem) : XElem := .mk "rubric" none none cs

/-- One entry of the options list built by `extract_category`:
`{'text': option.text, 'points': points, 'selected': selected}`. -/
structure ROption where
  text : Option String
  points : Int
  selected : Bool
  deriving Repr, DecidableEq

/-- The dict returned by `extract_category`:
`{'description': description, 'options': options, 'score': score}`. -/
structure Category where
  description : Option String
  options : List ROption
  score : Option Int
  deriving Repr, DecidableEq

/-- Surrounding-whitespace stripping as Python `int()` performs it,
expressed on the character list. -/
def pyStrip (s : String) : List Char :=
  ((s.data.dropWhile Char.isWhitespace).reverse.dropWhile Char.isWhitespace).reverse

/-- Python 2 `int(s)` on a string: strip surrounding whitespace, allow one
sign character, then base-10 digits; `none` models `ValueError`. -/
def pyInt (s : String) : Option Int :=
  let t := pyStrip s
  let (sign, digits) :=
    match t with
    | '-' :: rest => ((-1 : Int), rest)
    | '+' :: rest => ((1 : Int), rest)
    | _ => ((1 : Int), t)
  if digits.length > 0 && digits.all Char.isDigit then
    some (sign * (digits.foldl (fun acc c => acc * 10 + (c.toNat - 48)) 0 : Nat))
  else none

/-- Python 2 `int(x)` where `x` is `element.text` (a string or `None`):
`None` raises `TypeError`, an unparseable string raises `ValueError`. -/
def pyIntOfText : Option String → Except PyErr Int
  | none => .error (.typeError "int() argument must be a string or a number, not NoneType")
  | some s =>
    match pyInt s with
    | some n => .ok n
    | none => .error (.valueError ("invalid literal for int() with base 10: " ++ s))

/-- Truthiness of `option.get("points")`: `if pointstr:` is false for both
`None` and the empty string. -/
def truthyStr : Option String → Bool
  | none => false
  | some s => s ≠ ""

/-- Python `str.format` rendering of an optional text (`None` prints as
`"None"`). -/
def strOfOptText : Option String → String
  | none => "None"
  | some s => s

/-- The option loop of `extract_category`, threading `cur_points` and
`autonumbering` exactly as the Python loop does.  `score` is the value of
the enclosing category score variable at loop time. -/
def parse_options (score : Option Int) :
    List XElem → Int → Bool → Except PyErr (List ROption)
  | [], _, _ => .ok []
  | o :: rest, cur_points, autonumbering =>
    if o.tag ≠ "option" then
      .error (.rubricParsingError
        ("[extract_category]: expected option tag, got " ++ o.tag ++ " instead"))
    else if truthyStr o.points then
      match pyInt (o.points.getD "") with
      | none =>
        .error (.rubricParsingError
          ("[extract_category]: expected points to have int, got " ++
            o.points.getD "" ++ " instead"))
      | some points =>
        match parse_options score rest cur_points false with
        | .error e => .error e
        | .ok tail =>
          .ok ({ text := o.text, points := points,
                 selected := score == some points } :: tail)
    else if autonumbering then
      match parse_options score rest (cur_points + 1) true with
      | .error e => .error e
      | .ok tail =>
        .ok ({ text := o.text, points := cur_points,
               selected := score == some cur_points } :: tail)
    else
      .error (.plainException
        ("[extract_category]: missing points attribute. Cannot continue to " ++
          "auto-create points values after a points value is explicitly defined."))

/-- The option list the loop builds in pure auto-numbering mode: points
`cur, cur+1, ...` in document order.  Used to state and prove facts about
`parse_options`; not itself part of the source model. -/
def autoOptions (score : Option Int) : Int → List XElem → List ROption
  | _, [] => []
  | cur, o :: rest =>
    { text := o.text, points := cur, selected := score == some cur } ::
      autoOptions score (cur + 1) rest

/-- The comparison used by
`sorted(options, key=lambda option: option["points"])`. -/
def optionLe (a b : ROption) : Prop := a.points ≤ b.points

instance : DecidableRel optionLe := fun a b => Int.decLe a.points b.points

instance : IsTotal ROption optionLe := ⟨fun a b => le_total a.points b.points⟩

instance : IsTrans ROption optionLe := ⟨fun _ _ _ h1 h2 => le_trans h1 h2⟩

/-- Model of `sorted(options, key=lambda option: option["points"])`:
Python `sorted` is a stable ascending sort by the key, and a stable
insertion sort produces the identical output list. -/
def pySorted (options : List ROption) : List ROption :=
  List.insertionSort optionLe options

/-- The adjacent-duplicate scan of `validate_options` over `options[1:]`,
with `prev` the previous points value. -/
def validate_chain (prev : Int) : List ROption → Except PyErr Unit
  | [] => .ok ()
  | o :: rest =>
    if prev == o.points then
      .error (.rubricParsingError
        "[extract_category]: found duplicate point values between two different options")
    else validate_chain o.points rest

/-- `CombinedOpenEndedRubric.validate_options`. -/
def validate_options : List ROption → Except PyErr Unit
  | [] => .error (.rubricParsingError
      "[extract_category]: no options associated with this category")
  | [_] => .ok ()
  | o :: rest => validate_chain o.points rest

/-- The score-handling prefix of `extract_category`: inspects `category[1]`
(already fetched by the caller), producing the category score, the options
element list, and the updated `has_score` flag, or the missing-score
`RubricParsingError`. -/
def score_step (has_score : Bool) (descriptionxml scorexml : XElem)
    (rest : List XElem) : Except PyErr (Option Int × List XElem × Bool) :=
  if scorexml.tag == "score" then
    match pyIntOfText scorexml.text with
    | .error e => .error e
    | .ok s => .ok (some s, rest, true)
  else if has_score then
    .error (.rubricParsingError
      ("[extract_category] Category " ++ strOfOptText descriptionxml.text ++
        " is missing a score"))
  else
    .ok (none, scorexml :: rest, has_score)

/-- `CombinedOpenEndedRubric.extract_category`, with the instance flag
`self.has_score` passed in and returned.  `category[0]` and `category[1]`
are fetched before any tag check, so fewer than two children raise
`IndexError`. -/
def extract_category (has_score : Bool) (category : XElem) :
    Except PyErr (Category × Bool) :=
  match category.children with
  | [] => .error .indexError
  | [_] => .error .indexError
  | descriptionxml :: scorexml :: rest =>
    match score_step has_score descriptionxml scorexml rest with
    | .error e => .error e
    | .ok (score, optionsxml, has_score1) =>
      if descriptionxml.tag ≠ "description" then
        .error (.rubricParsingError
          ("[extract_category]: expected description tag, got " ++
            descriptionxml.tag ++ " instead"))
      else
        match parse_options score optionsxml 0 true with
        | .error e => .error e
        | .ok opts =>
          match validate_options (pySorted opts) with
          | .error e => .error e
          | .ok _ =>
            .ok ({ description := descriptionxml.text,
                   options := pySorted opts, score := score }, has_score1)

/-- The category loop of `extract_categories`, threading the `has_score`
flag through successive `extract_category` calls. -/
def extract_categories_loop :
    Bool → List XElem → Except PyErr (List Category × Bool)
  | hs, [] => .ok ([], hs)
  | hs, c :: rest =>
    if c.tag ≠ "category" then
      .error (.rubricParsingError
        ("[extract_categories] Expected a <category> tag: got " ++ c.tag ++ " instead"))
    else
      match extract_category hs c with
      | .error e => .error e
      | .ok (cat, hs1) =>
        match extract_categories_loop hs1 rest with
        | .error e => .error e
        | .ok (cats, hs2) => .ok (cat :: cats, hs2)

/-- `CombinedOpenEndedRubric.extract_categories` on an already-parsed
element. -/
def extract_categories (has_score : Bool) (element : XElem) :
    Except PyErr (List Category × Bool) :=
  extract_categories_loop has_score element.children

/-- The context dict handed to `self.system.render_template`. -/
structure RenderCtx where
  categories : List Category
  has_score : Bool
  view_only : Bool
  max_score : Int

/-- The dict returned by `render_rubric`:
`{'success': success, 'html': html, 'rubric_scores': rubric_scores}`. -/
structure RenderResult where
  success : Bool
  html : String
  rubric_scores : List (Option Int)
  deriving Repr, DecidableEq

/-- `cat["options"][-1]["points"]`: negative indexing raises `IndexError`
on an empty list. -/
def last_points (cat : Category) : Except PyErr Int :=
  match cat.options.getLast? with
  | none => .error .indexError
  | some o => .ok o.points

/-- `map((lambda cat: cat["options"][-1]["points"]), rubric_categories)`
in Python 2 builds the whole list eagerly, propagating the first error. -/
def mapLastPoints : List Category → Except PyErr (List Int)
  | [] => .ok []
  | c :: rest =>
    match last_points c with
    | .error e => .error e
    | .ok p =>
      match mapLastPoints rest with
      | .error e => .error e
      | .ok ps => .ok (p :: ps)

/-- Python `max` over a list: the empty list raises `ValueError`. -/
def pyMax : List Int → Except PyErr Int
  | [] => .error (.valueError "max() arg is an empty sequence")
  | x :: xs => .ok (xs.foldl max x)

/-- The `try` block of `render_rubric`: parse the string, extract the
categories, collect the scores, compute the maximum score, and call the
external template renderer.  `parse` models `etree.fromstring` and
`render_template` models `self.system.render_template`; both are external
collaborators that may raise. -/
def render_rubric_body (parse : String → Except PyErr XElem)
    (render_template : RenderCtx → Except PyErr String)
    (has_score view_only : Bool) (rubric_xml : String) :
    Except PyErr (RenderResult × Bool) :=
  match parse rubric_xml with
  | .error e => .error e
  | .ok element =>
    match extract_categories has_score element with
    | .error e => .error e
    | .ok (rubric_categories, hs1) =>
      let rubric_scores := rubric_categories.map (·.score)
      match mapLastPoints rubric_categories with
      | .error e => .error e
      | .ok max_scores =>
        match pyMax max_scores with
        | .error e => .error e
        | .ok max_score =>
          match render_template
              { categories := rubric_categories, has_score := hs1,
                view_only := view_only, max_score := max_score } with
          | .error e => .error e
          | .ok html =>
            .ok ({ success := true, html := html,
                   rubric_scores := rubric_scores }, hs1)

/-- `CombinedOpenEndedRubric.render_rubric`: the bare `except:` catches
every exception from the body and re-raises a `RubricParsingError` whose
message embeds the input string. -/
def render_rubric (parse : String → Except PyErr XElem)
    (render_template : RenderCtx → Except PyErr String)
    (has_score view_only : Bool) (rubric_xml : String) :
    Except PyErr (RenderResult × Bool) :=
  match render_rubric_body parse render_template has_score view_only rubric_xml with
  | .ok r => .ok r
  | .error _ =>
    .error (.rubricParsingError
      ("[render_rubric] Could not parse the rubric with xml: " ++ rubric_xml))

/-- `CombinedOpenEndedRubric.check_if_rubric_is_parseable`.  Its first
statement is `success, rubric_feedback = self.render_rubric(rubric_string)`;
`render_rubric` returns a dict with the three keys `success`, `html` and
`rubric_scores`, and in Python 2 unpacking a three-element iterable into
two names raises `ValueError: too many values to unpack`.  So when
`render_rubric` raises, that error propagates, and when it returns, the
unpacking raises `ValueError` before the count validation below is ever
reached. -/
def check_if_rubric_is_parseable (parse : String → Except PyErr XElem)
    (render_template : RenderCtx → Except PyErr String)
    (has_score view_only : Bool) (rubric_string : String)
    (_location_url : String) (_max_score_allowed _max_score : Int) :
    Except PyErr Unit :=
  match render_rubric parse render_template has_score view_only rubric_string with
  | .error e => .error e
  | .ok _ => .error (.valueError "too many values to unpack")

mutual

/-- `true` when no element of the tree is tagged `score`. -/
def scoreFree : XElem → Bool
  | .mk t _ _ cs => decide (t ≠ "score") && scoreFreeList cs

/-- `true` when no element of any tree in the list is tagged `score`. -/
def scoreFreeList : List XElem → Bool
  | [] => true
  | c :: cs => scoreFree c && scoreFreeList cs

end

/-- Spec example: category `Clarity` with three auto-numbered options. -/
def clarityCat : XElem :=
  catEl [descrEl "Clarity", optEl "Poor" none, optEl "OK" none, optEl "Great" none]

/-- Spec example: category with `<score>1</score>` and explicit points 0 and 1. -/
def scoredCat : XElem :=
  catEl [descrEl "Q", scoreEl "1", optEl "a" (some "0"), optEl "b" (some "1")]

/-- A category mixing an auto-numbered option after an explicit `points`
value: the fatal configuration error. -/
def mixedCat : XElem :=
  catEl [descrEl "Q", optEl "a" (some "3"), optEl "b" none]

/-- A category with two options carrying the same explicit points value. -/
def dupCat : XElem :=
  catEl [descrEl "Q", optEl "a" (some "2"), optEl "b" (some "2")]

/-- A well-formed scoreless rubric: one category, three options, so the
per-category option count is 3 and the summed point span is 2. -/
def goodRubric : XElem := rubricEl [clarityCat]

/-- The category value extraction produces for `clarityCat`. -/
def clarityCatValue : Category :=
  { description := some "Clarity",
    options := [⟨some "Poor", 0, false⟩, ⟨some "OK", 1, false⟩,
      ⟨some "Great", 2, false⟩],
    score := none }

end Rubric

namespace Tasks

/-- A Python exception as observed by the handler in
`_update_problem_module_state`: `exception_type.__name__`,
`str(exception.message)` and the formatted traceback from `format_exc`
(`None` when there is no traceback). -/
structure PyExc where
  etype : String
  message : String
  traceback : Option String
  deriving Repr, DecidableEq

/-- The progress dict built by `get_task_progress`. -/
structure TaskProgress where
  action_name : String
  attempted : Nat
  updated : Nat
  total : Nat
  duration_ms : Int
  deriving Repr, DecidableEq

/-- Observable outcome of the main loop of `_perform_module_state_update`:
which records the update function was invoked on, the values of
`num_attempted` and `num_updated` when the loop ended, and the exception
that aborted it, if any. -/
structure LoopOutcome (α : Type _) (ε : Type _) where
  visited : List α
  attempted : Nat
  updated : Nat
  error : Option ε
  deriving Repr, DecidableEq

/-- The `for module_to_update in modules_to_update` loop:
`num_attempted` is incremented before `update_fcn` is called, a truthy
result increments `num_updated`, and a raised exception ends the loop at
once with no further records visited. -/
def update_loop (f : α → Except ε Bool) : List α → LoopOutcome α ε
  | [] => ⟨[], 0, 0, none⟩
  | m :: rest =>
    match f m with
    | .error e => ⟨[m], 1, 0, some e⟩
    | .ok b =>
      let r := update_loop f rest
      ⟨m :: r.visited, r.attempted + 1, (if b then 1 else 0) + r.updated, r.error⟩

/-- `_perform_module_state_update` around the loop: `num_total` is fixed
from the query count before iteration, and an exception from the update
function is not caught but passes to the caller. -/
def perform_module_state_update (f : α → Except ε Bool)
    (modules_to_update : List α) (action_name : String) (duration_ms : Int) :
    Except ε TaskProgress :=
  let num_total := modules_to_update.length
  let r := update_loop f modules_to_update
  match r.error with
  | some e => .error e
  | none =>
    .ok { action_name := action_name, attempted := r.attempted,
          updated := r.updated, total := num_total, duration_ms := duration_ms }

/-- The value serialized by `json.dumps` into `task_output`: either the
progress dict, or the failure dict
`{'exception': ..., 'message': ..., 'traceback': ...}` (the traceback key
present only when a traceback exists). -/
inductive TaskOutput where
  | progressOut (progress : TaskProgress)
  | failureOut (exception message : String) (traceback : Option String)
  deriving Repr, DecidableEq

/-- The `CourseTaskLog` row fields this code mutates. -/
structure CourseTaskLog where
  task_id : String
  task_output : Option TaskOutput
  task_state : Option String
  deriving Repr, DecidableEq

def FAILURE : String := "FAILURE"

def SUCCESS : String := "SUCCESS"

/-- Python slice `s[:n]` on a string. -/
def pyTake (n : Nat) (s : String) : String := String.mk (s.data.take n)

/-- `_update_problem_module_state` around its `try` block.  `body` is the
result of the wrapped `_perform_module_state_update` call (a progress dict
or a raised exception).  Returned are the list of `CourseTaskLog`
snapshots passed to `_save_course_task_log_entry`, in order, and the
function result: the progress dict on success, or the re-raised original
exception after the FAILURE bookkeeping. -/
def update_problem_module_state (entry : CourseTaskLog) (task_id : String)
    (body : Except PyExc TaskProgress) :
    List CourseTaskLog × Except PyExc TaskProgress :=
  let entry1 : CourseTaskLog := { entry with task_id := task_id }
  match body with
  | .ok task_progress =>
    let entry2 : CourseTaskLog :=
      { entry1 with task_output := some (.progressOut task_progress),
                    task_state := some SUCCESS }
    ([entry1, entry2], .ok task_progress)
  | .error e =>
    let tb := e.traceback.map (pyTake 700)
    let entry2 : CourseTaskLog :=
      { entry1 with task_output := some (.failureOut e.etype e.message tb),
                    task_state := some FAILURE }
    ([entry1, entry2], .error e)

/-- A `StudentModule` row as `_reset_problem_attempts_module_state` sees
it: the student name (used only for tracking) and the parsed JSON `state`
dict.  Only integer-valued entries are modelled, since `attempts` is the
only key the function reads or writes. -/
structure StudentModule where
  username : String
  state : List (String × Int)
  deriving Repr, DecidableEq

/-- Python dict membership and lookup on the modelled state. -/
def dictLookup : List (String × Int) → String → Option Int
  | [], _ => none
  | (k, v) :: rest, key => if k == key then some v else dictLookup rest key

/-- Python dict assignment to an existing key (value replaced in place). -/
def dictSet : List (String × Int) → String → Int → List (String × Int)
  | [], key, v => [(key, v)]
  | (k, w) :: rest, key, v =>
    if k == key then (key, v) :: rest else (k, w) :: dictSet rest key v

/-- One `task_track` call with its `problem_reset_attempts` event info. -/
structure TrackEvent where
  event_type : String
  old_attempts : Int
  new_attempts : Int
  deriving Repr, DecidableEq

/-- Observable outcome of `_reset_problem_attempts_module_state`: the
student module afterwards, whether `student_module.save()` was called,
the tracking events emitted, and the return value. -/
structure ResetOutcome where
  module_out : StudentModule
  saved : Bool
  events : List TrackEvent
  result : Bool
  deriving Repr, DecidableEq

/-- `_reset_problem_attempts_module_state`: if the state dict has an
`attempts` key whose value is greater than zero, set it to zero, save the
row and emit a `problem_reset_attempts` tracking event with the old and
new counts; in every case return `True`. -/
def reset_problem_attempts_module_state (student_module : StudentModule) :
    ResetOutcome :=
  match dictLookup student_module.state "attempts" with
  | none => ⟨student_module, false, [], true⟩
  | some old_number_of_attempts =>
    if old_number_of_attempts > 0 then
      let sm1 : StudentModule :=
        { student_module with
          state := dictSet student_module.state "attempts" 0 }
      ⟨sm1, true,
        [{ event_type := "problem_reset_attempts",
           old_attempts := old_number_of_attempts, new_attempts := 0 }], true⟩
    else ⟨student_module, false, [], true⟩

end Tasks

/-! ## Theorems: BulkStateUpdater (`lms/djangoapps/courseware/tasks.py`) -/

namespace Tasks

theorem update_loop_error_prefix {α ε : Type _} (f : α → Except ε Bool)
    (pre : List α) (m : α) (post : List α) (e : ε)
    (hpre : ∀ x ∈ pre, ∃ b, f x = .ok b) (hm : f m = .error e) :
    (update_loop f (pre ++ m :: post)).visited = pre ++ [m] ∧
    (update_loop f (pre ++ m :: post)).attempted = pre.length + 1 ∧
    (update_loop f (pre ++ m :: post)).error = some e := by
  induction pre with
  | nil => simp [update_loop, hm]
  | cons x xs ih =>
    obtain ⟨b, hb⟩ := hpre x (List.mem_cons_self x xs)
    have hxs : ∀ y ∈ xs, ∃ b, f y = .ok b := fun y hy =>
      hpre y (List.mem_cons_of_mem x hy)
    obtain ⟨h1, h2, h3⟩ := ih hxs
    simp [update_loop, hb, h1, h2, h3]

/-- Claim C4: when the update function raises an exception on the k-th
record of the candidate set (here the record after a prefix `pre` of
non-raising records, so k = pre.length + 1), iteration stops immediately:
the records the update function was invoked on are exactly the prefix and
the failing record, `num_attempted` equals k, and the exception propagates
unchanged out of `_perform_module_state_update` to its caller. -/
theorem bulk_update_aborts_on_exception {α ε : Type _} (f : α → Except ε Bool)
    (pre : List α) (m : α) (post : List α) (e : ε)
    (action_name : String) (duration_ms : Int)
    (hpre : ∀ x ∈ pre, ∃ b, f x = .ok b) (hm : f m = .error e) :
    (update_loop f (pre ++ m :: post)).attempted = pre.length + 1 ∧
    (update_loop f (pre ++ m :: post)).visited = pre ++ [m] ∧
    perform_module_state_update f (pre ++ m :: post) action_name duration_ms =
      .error e := by
  obtain ⟨h1, h2, h3⟩ := update_loop_error_prefix f pre m post e hpre hm
  refine ⟨h2, h1, ?_⟩
  simp [perform_module_state_update, h3]

theorem bulk_update_aborts_on_exception_witness :
    (update_loop
        (fun n : Nat => if n == 2 then (.error "boom" : Except String Bool) else .ok true)
        [0, 1, 2, 3, 4]).attempted = 3 ∧
    (update_loop
        (fun n : Nat => if n == 2 then (.error "boom" : Except String Bool) else .ok true)
        [0, 1, 2, 3, 4]).visited = [0, 1, 2] ∧
    perform_module_state_update
        (fun n : Nat => if n == 2 then (.error "boom" : Except String Bool) else .ok true)
        [0, 1, 2, 3, 4] "reset" 17 = .error "boom" := by
  have h := bulk_update_aborts_on_exception
      (fun n : Nat => if n == 2 then (.error "boom" : Except String Bool) else .ok true)
      [0, 1] 2 [3, 4] "boom" "reset" 17
      (by intro x hx; fin_cases hx <;> exact ⟨true, rfl⟩) rfl
  simpa using h

/-- Claim C5: when the wrapped bulk-update body raises, the task record is
stamped with the task id, its output field receives the failure payload
holding the exception type name, the message and the traceback truncated
to the first 700 characters, its state is set to FAILURE, both snapshots
are persisted in order, and the original exception is re-raised; moreover
the truncation really bounds the stored traceback by 700 characters. -/
theorem update_state_records_failure (entry : CourseTaskLog) (task_id : String)
    (body : Except PyExc TaskProgress) (e : PyExc) (h : body = .error e) :
    update_problem_module_state entry task_id body =
      ([{ entry with task_id := task_id },
        { task_id := task_id,
          task_output := some (.failureOut e.etype e.message
            (e.traceback.map (pyTake 700))),
          task_state := some FAILURE }], .error e) ∧
    (∀ s : String, (pyTake 700 s).length ≤ 700) := by
  constructor
  · subst h
    rfl
  · intro s
    have hlen : (pyTake 700 s).length = (s.data.take 700).length := rfl
    rw [hlen]
    exact List.length_take_le 700 s.data

theorem update_state_records_failure_witness :
    update_problem_module_state ⟨"", none, none⟩ "tid"
        (.error ⟨"ValueError", "msg", some "tb"⟩) =
      ([⟨"tid", none, none⟩,
        ⟨"tid", some (.failureOut "ValueError" "msg" (some "tb")),
          some FAILURE⟩], .error ⟨"ValueError", "msg", some "tb"⟩) ∧
    (pyTake 700 "tb").length ≤ 700 := by
  have h := update_state_records_failure ⟨"", none, none⟩ "tid"
      (.error ⟨"ValueError", "msg", some "tb"⟩) ⟨"ValueError", "msg", some "tb"⟩ rfl
  exact ⟨h.1, h.2 "tb"⟩

theorem dictLookup_dictSet (l : List (String × Int)) (k : String) (v : Int) :
    dictLookup (dictSet l k v) k = some v := by
  induction l with
  | nil => simp [dictSet, dictLookup]
  | cons p rest ih =>
    obtain ⟨k1, v1⟩ := p
    by_cases h : k1 == k
    · simp [dictSet, dictLookup, h]
    · simp [dictSet, dictLookup, h, ih]

/-- Claim C9: the reset-attempts update function always returns true; on a
record whose attempts count is positive it zeroes the count, saves the
record and emits one tracking event carrying the old and new counts; on a
record whose attempts count is already 0 it returns true with the record
unmodified and unsaved. -/
theorem reset_attempts_behaviour (sm : StudentModule) :
    (reset_problem_attempts_module_state sm).result = true ∧
    (∀ n : Int, dictLookup sm.state "attempts" = some n → 0 < n →
      reset_problem_attempts_module_state sm =
        ⟨{ sm with state := dictSet sm.state "attempts" 0 }, true,
          [⟨"problem_reset_attempts", n, 0⟩], true⟩ ∧
      dictLookup (reset_problem_attempts_module_state sm).module_out.state
        "attempts" = some 0) ∧
    (dictLookup sm.state "attempts" = some 0 →
      reset_problem_attempts_module_state sm = ⟨sm, false, [], true⟩) := by
  refine ⟨?_, ?_, ?_⟩
  · unfold reset_problem_attempts_module_state
    rcases dictLookup sm.state "attempts" with _ | n
    · rfl
    · dsimp only
      split <;> rfl
  · intro n hn hpos
    have hgt : n > 0 := hpos
    constructor
    · simp [reset_problem_attempts_module_state, hn, hgt]
    · simp [reset_problem_attempts_module_state, hn, hgt, dictLookup_dictSet]
  · intro h0
    simp [reset_problem_attempts_module_state, h0]

theorem reset_attempts_behaviour_witness :
    reset_problem_attempts_module_state ⟨"s", [("attempts", 3)]⟩ =
      ⟨⟨"s", [("attempts", 0)]⟩, true, [⟨"problem_reset_attempts", 3, 0⟩], true⟩ ∧
    reset_problem_attempts_module_state ⟨"s", [("attempts", 0)]⟩ =
      ⟨⟨"s", [("attempts", 0)]⟩, false, [], true⟩ := by
  have h1 := (reset_attempts_behaviour ⟨"s", [("attempts", 3)]⟩).2.1 3 rfl (by decide)
  have h2 := (reset_attempts_behaviour ⟨"s", [("attempts", 0)]⟩).2.2 rfl
  exact ⟨h1.1, h2⟩

end Tasks

/-! ## Theorems: RubricEngine (`combined_open_ended_rubric.py`) -/

namespace Rubric

/-- Claim C1 (code evidence): on a well-formed rubric whose option counts
satisfy both conditions (3 options with `maxScoreAllowed = 2`, summed
point span 2 with `expectedMaxScore = 2`), `check_if_rubric_is_parseable`
does not succeed: `render_rubric` returns its three-key dict, and the
unpacking `success, rubric_feedback = self.render_rubric(...)` of that
dict into two names raises `ValueError` before any validation runs. -/
theorem check_parseable_always_unpack_error :
    render_rubric (fun _ => .ok goodRubric) (fun _ => .ok "html")
      false false "<rubric/>" =
      .ok ({ success := true, html := "html", rubric_scores := [none] }, false) ∧
    check_if_rubric_is_parseable (fun _ => .ok goodRubric) (fun _ => .ok "html")
      false false "<rubric/>" "location" 2 2 =
      .error (.valueError "too many values to unpack") := ⟨rfl, rfl⟩

/-- Claim C3: whenever the body of `render_rubric` (parsing, extraction,
max-score computation or the external template render) raises any
exception, `render_rubric` raises a `RubricParsingError` whose message
embeds the original rubric input string, and the original exception is
never propagated: the only error `render_rubric` can produce is that
wrapped one. -/
theorem render_rubric_wraps_every_error (parse : String → Except PyErr XElem)
    (render_template : RenderCtx → Except PyErr String)
    (has_score view_only : Bool) (rubric_xml : String) (e : PyErr)
    (h : render_rubric_body parse render_template has_score view_only rubric_xml =
      .error e) :
    render_rubric parse render_template has_score view_only rubric_xml =
      .error (.rubricParsingError
        ("[render_rubric] Could not parse the rubric with xml: " ++ rubric_xml)) ∧
    (∃ a b : String,
      "[render_rubric] Could not parse the rubric with xml: " ++ rubric_xml =
        a ++ rubric_xml ++ b) := by
  constructor
  · unfold render_rubric
    rw [h]
  · exact ⟨"[render_rubric] Could not parse the rubric with xml: ", "", by simp⟩

theorem render_rubric_wraps_every_error_witness :
    render_rubric (fun _ => .error (.valueError "boom")) (fun _ => .ok "html")
      false false "THEXML" =
      .error (.rubricParsingError
        ("[render_rubric] Could not parse the rubric with xml: " ++ "THEXML")) ∧
    (∃ a b : String,
      "[render_rubric] Could not parse the rubric with xml: " ++ "THEXML" =
        a ++ "THEXML" ++ b) :=
  render_rubric_wraps_every_error (fun _ => .error (.valueError "boom"))
    (fun _ => .ok "html") false false "THEXML" (.valueError "boom") rfl

/-- Claim C2 counterexample: for the concrete category mixing an explicit
`points` value with a later auto-numbered option, `extract_categories`
raises the plain `Exception`, but `render_rubric` on the same input does
NOT let it propagate unchanged: its bare `except:` catches it and
re-raises a `RubricParsingError`, contradicting the claim. -/
theorem config_error_wrapped_counterexample :
    extract_categories false (rubricEl [mixedCat]) =
      .error (.plainException
        ("[extract_category]: missing points attribute. Cannot continue to " ++
          "auto-create points values after a points value is explicitly defined.")) ∧
    render_rubric (fun _ => .ok (rubricEl [mixedCat])) (fun _ => .ok "html")
      false false "MIXED" =
      .error (.rubricParsingError
        ("[render_rubric] Could not parse the rubric with xml: MIXED")) := ⟨rfl, rfl⟩

/-- Claim C2 (amended): an option without a usable `points` attribute
after the category has left auto-numbering mode raises a plain
`Exception`, a value distinct from every `RubricParsingError`; when
`extract_categories` is called directly it propagates as such, but the
bare `except:` boundary of `render_rubric` treats it like every other
failure: it is caught and re-raised as a `RubricParsingError`, so it does
not propagate out of `render_rubric` unchanged. -/
theorem config_error_plain_but_wrapped
    (score : Option Int) (o : XElem) (rest : List XElem) (cur : Int)
    (h1 : o.tag = "option") (h2 : truthyStr o.points = false) :
    parse_options score (o :: rest) cur false =
      .error (.plainException
        ("[extract_category]: missing points attribute. Cannot continue to " ++
          "auto-create points values after a points value is explicitly defined.")) ∧
    (∀ m1 m2 : String, PyErr.plainException m1 ≠ PyErr.rubricParsingError m2) ∧
    (∀ (parse : String → Except PyErr XElem)
        (render_template : RenderCtx → Except PyErr String)
        (hs vo : Bool) (s m : String),
      render_rubric_body parse render_template hs vo s =
        .error (.plainException m) →
      render_rubric parse render_template hs vo s =
        .error (.rubricParsingError
          ("[render_rubric] Could not parse the rubric with xml: " ++ s))) := by
  refine ⟨?_, ?_, ?_⟩
  · simp [parse_options, h1, h2]
  · intro m1 m2 hcon
    cases hcon
  · intro parse render_template hs vo s m hbody
    unfold render_rubric
    rw [hbody]

theorem config_error_plain_but_wrapped_witness :
    parse_options none [optEl "b" none] 0 false =
      .error (.plainException
        ("[extract_category]: missing points attribute. Cannot continue to " ++
          "auto-create points values after a points value is explicitly defined.")) ∧
    PyErr.plainException "m1" ≠ PyErr.rubricParsingError "m2" ∧
    render_rubric (fun _ => .ok (rubricEl [mixedCat])) (fun _ => .ok "html")
      false false "MX" =
      .error (.rubricParsingError
        ("[render_rubric] Could not parse the rubric with xml: " ++ "MX")) := by
  have h := config_error_plain_but_wrapped none (optEl "b" none) [] 0 rfl rfl
  exact ⟨h.1, h.2.1 "m1" "m2", h.2.2 _ _ false false "MX" _ rfl⟩

/-- Claim C10: a `<category>` child with fewer than two children makes
`extract_categories` (called directly) fail with `IndexError` from the
unguarded `category[0]` / `category[1]` accesses, a value distinct from
every `RubricParsingError`.  This covers both a category with no children
and one holding only a description. -/
theorem short_category_raises_index_error (hs : Bool) (rt : String)
    (tx pt : Option String) (cat : XElem)
    (h1 : cat.tag = "category") (h2 : cat.children.length < 2) :
    extract_categories hs (XElem.mk rt tx pt [cat]) = .error .indexError ∧
    (∀ m : String, (PyErr.indexError : PyErr) ≠ .rubricParsingError m) := by
  constructor
  · have hcat : extract_category hs cat = .error .indexError := by
      rcases hch : cat.children with _ | ⟨d, _ | ⟨d2, t⟩⟩
      · simp [extract_category, hch]
      · simp [extract_category, hch]
      · rw [hch] at h2
        simp at h2
        omega
    show extract_categories_loop hs [cat] = .error .indexError
    simp [extract_categories_loop, h1, hcat]
  · intro m hcon
    cases hcon

theorem short_category_raises_index_error_witness :
    extract_categories false (XElem.mk "rubric" none none [catEl [descrEl "Q"]]) =
      .error .indexError ∧
    (PyErr.indexError : PyErr) ≠ .rubricParsingError "m" := by
  have h := short_category_raises_index_error false "rubric" none none
      (catEl [descrEl "Q"]) rfl (by decide)
  exact ⟨h.1, h.2 "m"⟩

end Rubric

namespace Rubric

theorem parse_options_auto (score : Option Int) (opts : List XElem) (cur : Int)
    (h : ∀ o ∈ opts, o.tag = "option" ∧ truthyStr o.points = false) :
    parse_options score opts cur true = .ok (autoOptions score cur opts) := by
  induction opts generalizing cur with
  | nil => rfl
  | cons x xs ih =>
    obtain ⟨htag, hpts⟩ := h x (List.mem_cons_self x xs)
    have hxs : ∀ o ∈ xs, o.tag = "option" ∧ truthyStr o.points = false :=
      fun o ho => h o (List.mem_cons_of_mem x ho)
    simp [parse_options, htag, hpts, ih (cur + 1) hxs, autoOptions]

theorem autoOptions_points (score : Option Int) (opts : List XElem) (cur : Int) :
    (autoOptions score cur opts).map (·.points) =
      (List.range opts.length).map (fun i : Nat => cur + (i : Int)) := by
  induction opts generalizing cur with
  | nil => rfl
  | cons x xs ih =>
    rw [autoOptions, List.map_cons, ih (cur + 1), List.length_cons,
      List.range_succ_eq_map, List.map_cons, List.map_map]
    simp only [List.cons.injEq]
    refine ⟨by simp, List.map_congr_left fun i _ => ?_⟩
    simp only [Function.comp_apply]
    push_cast
    ring

theorem autoOptions_text (score : Option Int) (opts : List XElem) (cur : Int) :
    (autoOptions score cur opts).map (·.text) = opts.map XElem.text := by
  induction opts generalizing cur with
  | nil => rfl
  | cons x xs ih => simp [autoOptions, ih (cur + 1)]

theorem autoOptions_mem_le (score : Option Int) (opts : List XElem) (cur : Int) :
    ∀ o ∈ autoOptions score cur opts, cur ≤ o.points := by
  induction opts generalizing cur with
  | nil =>
    intro o ho
    simp [autoOptions] at ho
  | cons x xs ih =>
    intro o ho
    rw [autoOptions] at ho
    rcases List.mem_cons.mp ho with h | h
    · subst h
      exact le_refl _
    · have := ih (cur + 1) o h
      omega

theorem autoOptions_pairwise_lt (score : Option Int) (opts : List XElem) (cur : Int) :
    (autoOptions score cur opts).Pairwise (fun a b => a.points < b.points) := by
  induction opts generalizing cur with
  | nil => exact List.Pairwise.nil
  | cons x xs ih =>
    rw [autoOptions]
    refine List.Pairwise.cons ?_ (ih (cur + 1))
    intro b hb
    have hle := autoOptions_mem_le score xs (cur + 1) b hb
    show cur < b.points
    omega

theorem autoOptions_sorted (score : Option Int) (opts : List XElem) (cur : Int) :
    List.Sorted optionLe (autoOptions score cur opts) :=
  (autoOptions_pairwise_lt score opts cur).imp (fun h => le_of_lt h)

theorem pySorted_autoOptions (score : Option Int) (opts : List XElem) (cur : Int) :
    pySorted (autoOptions score cur opts) = autoOptions score cur opts :=
  List.Sorted.insertionSort_eq (autoOptions_sorted score opts cur)

theorem validate_chain_ok_of_chain_lt (l : List ROption) (prev : Int)
    (h : List.Chain (fun a b : Int => a < b) prev (l.map (·.points))) :
    validate_chain prev l = .ok () := by
  induction l generalizing prev with
  | nil => rfl
  | cons o rest ih =>
    rw [List.map_cons, List.chain_cons] at h
    rw [validate_chain, if_neg (by simp [Int.ne_of_lt h.1])]
    exact ih _ h.2

theorem validate_options_ok_of_pairwise_lt (l : List ROption)
    (hne : l ≠ []) (h : (l.map (·.points)).Pairwise (· < ·)) :
    validate_options l = .ok () := by
  rcases l with _ | ⟨x, _ | ⟨y, rest⟩⟩
  · exact absurd rfl hne
  · rfl
  · show validate_chain x.points (y :: rest) = .ok ()
    apply validate_chain_ok_of_chain_lt
    rw [List.map_cons] at h
    exact List.chain_iff_pairwise.mpr h

/-- Claim C6: for a category whose option elements all lack a usable
`points` attribute (auto-numbering mode throughout), extraction succeeds
and assigns points exactly 0, 1, ..., n-1 to the n options in document
order, with the option texts kept in document order. -/
theorem auto_numbering_assigns_range (has_score : Bool) (category d sx : XElem)
    (rest : List XElem) (score : Option Int) (optionsxml : List XElem) (hs1 : Bool)
    (hch : category.children = d :: sx :: rest)
    (hstep : score_step has_score d sx rest = .ok (score, optionsxml, hs1))
    (hd : d.tag = "description")
    (hne : optionsxml ≠ [])
    (hopts : ∀ o ∈ optionsxml, o.tag = "option" ∧ truthyStr o.points = false) :
    extract_category has_score category =
      .ok ({ description := d.text, options := autoOptions score 0 optionsxml,
             score := score }, hs1) ∧
    (autoOptions score 0 optionsxml).map (·.points) =
      (List.range optionsxml.length).map (fun i : Nat => (i : Int)) ∧
    (autoOptions score 0 optionsxml).map (·.text) = optionsxml.map XElem.text := by
  have hpo := parse_options_auto score optionsxml 0 hopts
  have hsorted := pySorted_autoOptions score optionsxml 0
  have hvalid : validate_options (pySorted (autoOptions score 0 optionsxml)) = .ok () := by
    rw [hsorted]
    apply validate_options_ok_of_pairwise_lt
    · rcases optionsxml with _ | ⟨o, os⟩
      · exact absurd rfl hne
      · simp [autoOptions]
    · exact List.pairwise_map.mpr (autoOptions_pairwise_lt score optionsxml 0)
  refine ⟨?_, (autoOptions_points score optionsxml 0).trans
      (List.map_congr_left fun i _ => by simp),
    autoOptions_text score optionsxml 0⟩
  unfold extract_category
  rw [hch]
  dsimp only
  rw [hstep]
  dsimp only
  rw [if_neg (by simp [hd]), hpo]
  dsimp only
  rw [hvalid]
  dsimp only
  rw [hsorted]

theorem auto_numbering_assigns_range_witness :
    extract_category false clarityCat =
      .ok ({ description := some "Clarity",
             options := [⟨some "Poor", 0, false⟩, ⟨some "OK", 1, false⟩,
               ⟨some "Great", 2, false⟩], score := none }, false) ∧
    ([⟨some "Poor", 0, false⟩, ⟨some "OK", 1, false⟩,
        ⟨some "Great", 2, false⟩] : List ROption).map (·.points) =
      (List.range 3).map (fun i : Nat => (i : Int)) ∧
    ([⟨some "Poor", 0, false⟩, ⟨some "OK", 1, false⟩,
        ⟨some "Great", 2, false⟩] : List ROption).map (·.text) =
      [optEl "Poor" none, optEl "OK" none, optEl "Great" none].map XElem.text := by
  have h := auto_numbering_assigns_range false clarityCat (descrEl "Clarity")
      (optEl "Poor" none) [optEl "OK" none, optEl "Great" none] none
      [optEl "Poor" none, optEl "OK" none, optEl "Great" none] false
      rfl rfl rfl (List.cons_ne_nil _ _)
      (by
        intro o ho
        rw [List.mem_cons, List.mem_cons, List.mem_cons] at ho
        rcases ho with rfl | rfl | rfl | ho
        · exact ⟨rfl, rfl⟩
        · exact ⟨rfl, rfl⟩
        · exact ⟨rfl, rfl⟩
        · simp at ho)
  exact h

end Rubric

namespace Rubric

theorem pySorted_sorted (l : List ROption) : List.Sorted optionLe (pySorted l) :=
  List.sorted_insertionSort optionLe l

theorem pySorted_perm (l : List ROption) : (pySorted l).Perm l :=
  List.perm_insertionSort optionLe l

theorem validate_chain_lt (l : List ROption) (prev : Int)
    (hok : validate_chain prev l = .ok ())
    (hle : List.Chain (fun a b : Int => a ≤ b) prev (l.map (·.points))) :
    List.Chain (fun a b : Int => a < b) prev (l.map (·.points)) := by
  induction l generalizing prev with
  | nil => exact List.Chain.nil
  | cons o rest ih =>
    rw [List.map_cons, List.chain_cons] at hle ⊢
    rw [validate_chain] at hok
    by_cases he : prev == o.points
    · rw [if_pos he] at hok
      cases hok
    · rw [if_neg he] at hok
      exact ⟨lt_of_le_of_ne hle.1 (by simpa using he), ih _ hok hle.2⟩

theorem validate_ok_pairwise_lt (l : List ROption)
    (hsorted : List.Sorted optionLe l) (hok : validate_options l = .ok ()) :
    (l.map (·.points)).Pairwise (· < ·) := by
  rcases l with _ | ⟨x, _ | ⟨y, rest⟩⟩
  · exact List.Pairwise.nil
  · simp
  · have hok2 : validate_chain x.points (y :: rest) = .ok () := hok
    have hlem : List.Pairwise (fun a b : Int => a ≤ b)
        ((x :: y :: rest).map (·.points)) :=
      List.pairwise_map.mpr (hsorted.imp fun hab => hab)
    rw [List.map_cons] at hlem ⊢
    exact List.chain_iff_pairwise.mp
      (validate_chain_lt (y :: rest) x.points hok2 (List.chain_iff_pairwise.mpr hlem))

theorem extract_category_ok_inv (hs : Bool) (cat : XElem) (c : Category) (hs1 : Bool)
    (h : extract_category hs cat = .ok (c, hs1)) :
    ∃ d sx rest score optionsxml opts,
      cat.children = d :: sx :: rest ∧
      score_step hs d sx rest = .ok (score, optionsxml, hs1) ∧
      d.tag = "description" ∧
      parse_options score optionsxml 0 true = .ok opts ∧
      validate_options (pySorted opts) = .ok () ∧
      c = { description := d.text, options := pySorted opts, score := score } := by
  unfold extract_category at h
  rcases hch : cat.children with _ | ⟨d, _ | ⟨sx, rest⟩⟩ <;> rw [hch] at h
  · cases h
  · cases h
  · dsimp only at h
    rcases hstep : score_step hs d sx rest with e | ⟨score, optionsxml, hs2⟩ <;>
      rw [hstep] at h
    · cases h
    · dsimp only at h
      by_cases hd : d.tag = "description"
      · rw [if_neg (by simp [hd])] at h
        rcases hpo : parse_options score optionsxml 0 true with e | opts <;> rw [hpo] at h
        · cases h
        · dsimp only at h
          rcases hv : validate_options (pySorted opts) with e | u <;> rw [hv] at h
          · cases h
          · cases u
            dsimp only at h
            simp only [Except.ok.injEq, Prod.mk.injEq] at h
            obtain ⟨hc, hhs⟩ := h
            subst hhs
            exact ⟨d, sx, rest, score, optionsxml, opts, rfl, hstep, hd, hpo, hv, hc.symm⟩
      · rw [if_pos hd] at h
        cases h

theorem validate_chain_error_msg (l : List ROption) (prev : Int) (e : PyErr)
    (h : validate_chain prev l = .error e) :
    e = .rubricParsingError
      "[extract_category]: found duplicate point values between two different options" := by
  induction l generalizing prev with
  | nil => cases h
  | cons o rest ih =>
    rw [validate_chain] at h
    by_cases he : prev == o.points
    · rw [if_pos he] at h
      injection h with h1
      exact h1.symm
    · rw [if_neg he] at h
      exact ih _ h

theorem validate_error_on_dup (opts : List ROption)
    (hdup : ¬ (opts.map (·.points)).Nodup) :
    validate_options (pySorted opts) = .error (.rubricParsingError
      "[extract_category]: found duplicate point values between two different options") := by
  have hsorted := pySorted_sorted opts
  have hperm := pySorted_perm opts
  have hnd : ¬ ((pySorted opts).map (·.points)).Nodup := fun hnd =>
    hdup ((hperm.map (·.points)).nodup_iff.mp hnd)
  rcases hv : validate_options (pySorted opts) with e | u
  · rcases hs : pySorted opts with _ | ⟨x, _ | ⟨y, rest⟩⟩
    · rw [hs] at hnd
      simp at hnd
    · rw [hs] at hnd
      simp at hnd
    · rw [hs] at hv
      have hv2 : validate_chain x.points (y :: rest) = .error e := hv
      rw [validate_chain_error_msg (y :: rest) x.points e hv2]
  · cases u
    have hpl := validate_ok_pairwise_lt (pySorted opts) hsorted hv
    exact absurd (hpl.imp fun hab => ne_of_lt hab) hnd

theorem extract_category_error_glue (hs : Bool) (cat d sx : XElem)
    (rest : List XElem) (score : Option Int) (optionsxml : List XElem)
    (hs1 : Bool) (opts : List ROption) (e : PyErr)
    (hch : cat.children = d :: sx :: rest)
    (hstep : score_step hs d sx rest = .ok (score, optionsxml, hs1))
    (hd : d.tag = "description")
    (hpo : parse_options score optionsxml 0 true = .ok opts)
    (hv : validate_options (pySorted opts) = .error e) :
    extract_category hs cat = .error e := by
  unfold extract_category
  rw [hch]
  dsimp only
  rw [hstep]
  dsimp only
  rw [if_neg (by simp [hd]), hpo]
  dsimp only
  rw [hv]

/-- Claim C7: when `extract_category` succeeds, the resulting option list
is sorted ascending by points with pairwise-distinct points values; and
when the option loop yields zero options or a duplicated points value, the
category extraction fails with a `RubricParsingError`. -/
theorem extract_options_sorted_distinct :
    (∀ (hs : Bool) (cat : XElem) (c : Category) (hs1 : Bool),
      extract_category hs cat = .ok (c, hs1) →
      List.Sorted (· ≤ ·) (c.options.map (·.points)) ∧
      (c.options.map (·.points)).Nodup) ∧
    (∀ (hs : Bool) (cat d sx : XElem) (rest : List XElem) (score : Option Int)
        (optionsxml : List XElem) (hs1 : Bool) (opts : List ROption),
      cat.children = d :: sx :: rest →
      score_step hs d sx rest = .ok (score, optionsxml, hs1) →
      d.tag = "description" →
      parse_options score optionsxml 0 true = .ok opts →
      opts = [] ∨ ¬ (opts.map (·.points)).Nodup →
      ∃ m, extract_category hs cat = .error (.rubricParsingError m)) := by
  constructor
  · intro hs cat c hs1 h
    obtain ⟨d, sx, rest, score, optionsxml, opts, hch, hstep, hd, hpo, hv, hc⟩ :=
      extract_category_ok_inv hs cat c hs1 h
    subst hc
    have hsorted := pySorted_sorted opts
    have hpl := validate_ok_pairwise_lt (pySorted opts) hsorted hv
    exact ⟨List.pairwise_map.mpr (hsorted.imp fun hab => hab),
      hpl.imp fun hab => ne_of_lt hab⟩
  · intro hs cat d sx rest score optionsxml hs1 opts hch hstep hd hpo hbad
    rcases hbad with rfl | hdup
    · exact ⟨_, extract_category_error_glue hs cat d sx rest score optionsxml hs1 [] _
        hch hstep hd hpo rfl⟩
    · exact ⟨_, extract_category_error_glue hs cat d sx rest score optionsxml hs1 opts _
        hch hstep hd hpo (validate_error_on_dup opts hdup)⟩

theorem extract_options_sorted_distinct_witness :
    (List.Sorted (· ≤ ·)
        (({ description := some "Clarity",
            options := [⟨some "Poor", 0, false⟩, ⟨some "OK", 1, false⟩,
              ⟨some "Great", 2, false⟩], score := none } : Category).options.map
          (·.points)) ∧
      (({ description := some "Clarity",
          options := [⟨some "Poor", 0, false⟩, ⟨some "OK", 1, false⟩,
            ⟨some "Great", 2, false⟩], score := none } : Category).options.map
        (·.points)).Nodup) ∧
    (∃ m, extract_category false dupCat = .error (.rubricParsingError m)) := by
  constructor
  · exact extract_options_sorted_distinct.1 false clarityCat _ false rfl
  · exact extract_options_sorted_distinct.2 false dupCat (descrEl "Q")
      (optEl "a" (some "2")) [optEl "b" (some "2")] none
      [optEl "a" (some "2"), optEl "b" (some "2")] false
      [⟨some "a", 2, false⟩, ⟨some "b", 2, false⟩]
      rfl rfl rfl rfl (Or.inr (by decide))

end Rubric

namespace Rubric

theorem parse_options_selected (score : Option Int) (opts : List XElem) :
    ∀ (cur : Int) (auto : Bool) (l : List ROption),
      parse_options score opts cur auto = .ok l →
      ∀ o ∈ l, o.selected = (score == some o.points) := by
  induction opts with
  | nil =>
    intro cur auto l h o ho
    rw [parse_options] at h
    cases h
    cases ho
  | cons x xs ih =>
    intro cur auto l h o ho
    rw [parse_options] at h
    by_cases htag : x.tag = "option"
    · rw [if_neg (by simp [htag])] at h
      by_cases hp : truthyStr x.points = true
      · rw [if_pos hp] at h
        rcases hpi : pyInt (x.points.getD "") with _ | pts <;> rw [hpi] at h
        · cases h
        · dsimp only at h
          rcases hrec : parse_options score xs cur false with e | tail <;> rw [hrec] at h
          · cases h
          · dsimp only at h
            cases h
            rcases List.mem_cons.mp ho with rfl | hmem
            · rfl
            · exact ih cur false tail hrec o hmem
      · rw [if_neg (by simp [hp])] at h
        by_cases ha : auto = true
        · subst ha
          rw [if_pos rfl] at h
          rcases hrec : parse_options score xs (cur + 1) true with e | tail <;> rw [hrec] at h
          · cases h
          · dsimp only at h
            cases h
            rcases List.mem_cons.mp ho with rfl | hmem
            · rfl
            · exact ih (cur + 1) true tail hrec o hmem
        · have ha2 : auto = false := by
            revert ha
            cases auto <;> simp
          subst ha2
          rw [if_neg (by simp)] at h
          cases h
    · rw [if_pos htag] at h
      cases h

theorem score_step_none (hs : Bool) (d sx : XElem) (rest : List XElem)
    (hsx : sx.tag ≠ "score") (hhs : hs = false) :
    score_step hs d sx rest = .ok (none, sx :: rest, false) := by
  subst hhs
  rw [score_step, if_neg (by simp [hsx]), if_neg (by simp)]

theorem scoreFree_tag (e : XElem) (h : scoreFree e = true) : e.tag ≠ "score" := by
  rcases e with ⟨t, tx, p, cs⟩
  rw [scoreFree] at h
  simp only [Bool.and_eq_true, decide_eq_true_eq] at h
  exact h.1

theorem scoreFree_childrenList (e : XElem) (h : scoreFree e = true) :
    scoreFreeList e.children = true := by
  rcases e with ⟨t, tx, p, cs⟩
  rw [scoreFree] at h
  simp only [Bool.and_eq_true, decide_eq_true_eq] at h
  exact h.2

theorem scoreFreeList_mem (l : List XElem) (h : scoreFreeList l = true) :
    ∀ c ∈ l, scoreFree c = true := by
  induction l with
  | nil =>
    intro c hc
    cases hc
  | cons x xs ih =>
    rw [scoreFreeList] at h
    simp only [Bool.and_eq_true] at h
    intro c hc
    rcases List.mem_cons.mp hc with rfl | hc
    · exact h.1
    · exact ih h.2 c hc

theorem extract_category_scorefree (cat : XElem) (c : Category) (hs1 : Bool)
    (hfree : scoreFreeList cat.children = true)
    (h : extract_category false cat = .ok (c, hs1)) :
    hs1 = false ∧ c.score = none ∧ ∀ o ∈ c.options, o.selected = false := by
  obtain ⟨d, sx, rest, score, optionsxml, opts, hch, hstep, hd, hpo, hv, hc⟩ :=
    extract_category_ok_inv false cat c hs1 h
  have hsx : scoreFree sx = true := by
    apply scoreFreeList_mem cat.children hfree
    rw [hch]
    exact List.mem_cons_of_mem _ (List.mem_cons_self _ _)
  have hstep2 := score_step_none false d sx rest (scoreFree_tag sx hsx) rfl
  rw [hstep2] at hstep
  simp only [Except.ok.injEq, Prod.mk.injEq] at hstep
  obtain ⟨hscore, hrest, hhs⟩ := hstep
  subst hc
  refine ⟨hhs.symm, by simp [hscore.symm], ?_⟩
  intro o ho
  have hmem := (pySorted_perm opts).mem_iff.mp ho
  have hsel := parse_options_selected score optionsxml 0 true opts hpo o hmem
  rw [hsel, ← hscore]
  rfl

theorem extract_categories_loop_scorefree (l : List XElem) :
    ∀ (cats : List Category) (hs2 : Bool),
      scoreFreeList l = true →
      extract_categories_loop false l = .ok (cats, hs2) →
      hs2 = false ∧ ∀ c ∈ cats, c.score = none ∧ ∀ o ∈ c.options, o.selected = false := by
  induction l with
  | nil =>
    intro cats hs2 hfree h
    rw [extract_categories_loop] at h
    simp only [Except.ok.injEq, Prod.mk.injEq] at h
    obtain ⟨hcats, hhs⟩ := h
    subst hcats
    subst hhs
    exact ⟨rfl, by intro c hc; cases hc⟩
  | cons x xs ih =>
    intro cats hs2 hfree h
    rw [scoreFreeList] at hfree
    simp only [Bool.and_eq_true] at hfree
    rw [extract_categories_loop] at h
    by_cases htag : x.tag = "category"
    · rw [if_neg (by simp [htag])] at h
      rcases hex : extract_category false x with e | ⟨cat, hsx⟩ <;> rw [hex] at h
      · cases h
      · dsimp only at h
        obtain ⟨hhsx, hcscore, hcsel⟩ :=
          extract_category_scorefree x cat hsx (scoreFree_childrenList x hfree.1) hex
        subst hhsx
        rcases hloop : extract_categories_loop false xs with e | ⟨cats2, hs3⟩ <;>
          rw [hloop] at h
        · cases h
        · dsimp only at h
          simp only [Except.ok.injEq, Prod.mk.injEq] at h
          obtain ⟨hcats, hhs⟩ := h
          subst hcats
          subst hhs
          obtain ⟨ih1, ih2⟩ := ih cats2 hs3 hfree.2 hloop
          refine ⟨ih1, ?_⟩
          intro c hc
          rcases List.mem_cons.mp hc with rfl | hc
          · exact ⟨hcscore, hcsel⟩
          · exact ih2 c hc
    · rw [if_pos htag] at h
      cases h

/-- Claim C8: for every successfully extracted category, an option's
`selected` is true exactly when its points equals the category score; for
a rubric containing no `score` element anywhere, extraction from a fresh
parser leaves the `has_score` flag false and every option unselected; and
for the concrete category with `<score>1</score>` and explicit points 0
and 1, exactly the points=1 option is selected. -/
theorem selected_matches_score :
    (∀ (hs : Bool) (cat : XElem) (c : Category) (hs1 : Bool),
      extract_category hs cat = .ok (c, hs1) →
      ∀ o ∈ c.options, o.selected = (c.score == some o.points)) ∧
    (∀ (e : XElem) (cats : List Category) (hs2 : Bool),
      scoreFree e = true →
      extract_categories false e = .ok (cats, hs2) →
      hs2 = false ∧
        ∀ c ∈ cats, c.score = none ∧ ∀ o ∈ c.options, o.selected = false) ∧
    extract_category false scoredCat =
      .ok ({ description := some "Q",
             options := [⟨some "a", 0, false⟩, ⟨some "b", 1, true⟩],
             score := some 1 }, true) := by
  refine ⟨?_, ?_, rfl⟩
  · intro hs cat c hs1 h
    obtain ⟨d, sx, rest, score, optionsxml, opts, hch, hstep, hd, hpo, hv, hc⟩ :=
      extract_category_ok_inv hs cat c hs1 h
    subst hc
    intro o ho
    have hmem := (pySorted_perm opts).mem_iff.mp ho
    exact parse_options_selected score optionsxml 0 true opts hpo o hmem
  · intro e cats hs2 hfree hex
    exact extract_categories_loop_scorefree e.children cats hs2
      (scoreFree_childrenList e hfree) hex

theorem selected_matches_score_witness :
    false = false ∧
    ∀ c ∈ [clarityCatValue],
      c.score = none ∧ ∀ o ∈ c.options, o.selected = false :=
  selected_matches_score.2.1 (rubricEl [clarityCat]) [clarityCatValue] false rfl rfl

end Rubric
